import Mathlib

/-!
Verification of the dwar2pd repository (DataWarrior-to-pandas converter).

Shallow embedding of `src/dwar2pd/decode.py` and `src/dwar2pd/parser.py`.
Python strings are Lean `String`s manipulated through their character
lists; a pandas cell is `Option String` where `none` stands for the NaN
padding pandas inserts for ragged rows; fallible Python code is embedded
in `Except`.  The external `node decode.mjs` subprocess is abstracted as
an oracle `ExtOutcome`-valued function, exactly at the boundary the
source calls it (`subprocess.run` + `stdout.splitlines()`).
-/

namespace Dwar2pd

/-! ## Python string primitives -/

/-- Python whitespace characters stripped by `str.strip()` (ASCII subset,
which is all that tab-separated `.dwar` content contains). -/
def isPyWS (c : Char) : Bool :=
  c = ' ' || c = '\t' || c = '\n' || c = '\x0d' || c = '\x0c' || c = '\x0b'

/-- Drop leading characters satisfying `isPyWS`. -/
def trimStart (l : List Char) : List Char := l.dropWhile isPyWS

/-- Drop trailing characters satisfying `isPyWS`. -/
def trimEnd (l : List Char) : List Char := (l.reverse.dropWhile isPyWS).reverse

/-- Python `str.strip()`. -/
def pyStrip (s : String) : String := ⟨trimEnd (trimStart s.data)⟩

/-- Split a character list at every occurrence of `c`
(Python `str.split(c)` for a one-character separator: empty parts kept,
`"".split(c) == [""]`). -/
def splitCh (c : Char) : List Char → List (List Char)
  | [] => [[]]
  | x :: xs =>
    match splitCh c xs with
    | [] => [[]]
    | h :: t => if x = c then [] :: h :: t else (x :: h) :: t

/-- Python `line.split('\t')`. -/
def splitTab (s : String) : List String := (splitCh '\t' s.data).map List.asString

/-- Python `content.split('\n')`. -/
def pyLines (s : String) : List String := (splitCh '\n' s.data).map List.asString

/-- Does `pat` occur contiguously inside `l`? -/
def listContains (pat : List Char) : List Char → Bool
  | [] => pat.isEmpty
  | x :: xs => pat.isPrefixOf (x :: xs) || listContains pat xs

/-- Python substring test `pat in s`. -/
def strContains (s pat : String) : Bool := listContains pat.data s.data

/-- Python `s.startswith(pre)`. -/
def pyStartsWith (s pre : String) : Bool := pre.data.isPrefixOf s.data

/-- Python `s.endswith(suf)`. -/
def pyEndsWith (s suf : String) : Bool := suf.data.isSuffixOf s.data

/-- Python `s.lower()` (ASCII case folding, the only case occurring in
column names of the format). -/
def pyLower (s : String) : String := ⟨s.data.map Char.toLower⟩

/-- Python `line.split(':', 1)` guarded by `':' in line`: `none` when the
string has no colon, otherwise the parts before and after the first one. -/
def splitFirstColon (s : String) : Option (String × String) :=
  let pre := s.data.takeWhile (fun c => !(c = ':'))
  if pre.length = s.data.length then none
  else some (⟨pre⟩, ⟨s.data.drop (pre.length + 1)⟩)

/-- Decimal digits to a number; `none` if empty or a non-digit occurs. -/
def digitsToNat (l : List Char) : Option Nat :=
  if l = [] then none
  else
    l.foldl
      (fun acc c =>
        acc.bind (fun a => if c.isDigit then some (a * 10 + (c.toNat - '0'.toNat)) else none))
      (some 0)

/-- Python `int(s)` on a decimal literal: surrounding whitespace and an
optional sign are accepted, anything else raises `ValueError` (here:
`none`). -/
def pyInt (s : String) : Option Int :=
  match (pyStrip s).data with
  | '+' :: r => (digitsToNat r).map Int.ofNat
  | '-' :: r => (digitsToNat r).map (fun n => -(Int.ofNat n))
  | r => (digitsToNat r).map Int.ofNat

/-- Python list indexing `l[n]` for `int` `n`: negative indices count from
the end; out of range raises `IndexError` (here: `none`). -/
def pyIndex {α : Type} (l : List α) (n : Int) : Option α :=
  let m : Int := if n < 0 then n + l.length else n
  if 0 ≤ m then l.get? m.toNat else none

/-- Python `s.split(sub)` for a multi-character separator `sub`
(non-overlapping, left to right; empty parts kept).  `fuel` bounds the
recursion; callers pass the haystack length. -/
def splitSubGo (pat : List Char) (fuel : Nat) (l : List Char) (cur : List Char) :
    List (List Char) :=
  match fuel with
  | 0 => [cur.reverse ++ l]
  | fuel + 1 =>
    if pat.isPrefixOf l ∧ pat ≠ [] then
      cur.reverse :: splitSubGo pat fuel (l.drop pat.length) []
    else
      match l with
      | [] => [cur.reverse]
      | x :: xs => splitSubGo pat fuel xs (x :: cur)

/-- Python `s.split(sub)`. -/
def pySplitSub (s sub : String) : List String :=
  (splitSubGo sub.data (s.data.length + 1) s.data []).map List.asString

/-! ## Batch decode gateway (`src/dwar2pd/decode.py`) -/

/-- A pandas cell: a string, or `none` for the NaN pandas pads ragged rows
with. -/
abbrev Cell := Option String

/-- Outcome of the external `subprocess.run(["node", decode.mjs] + batch)`
call, abstracted at the boundary: on success the oracle yields
`result.stdout.splitlines()`; the other constructors are
`subprocess.TimeoutExpired`, `subprocess.CalledProcessError` (non-zero
exit under `check=True`) and any other exception. -/
inductive ExtOutcome where
  | success (lines : List String)
  | timeoutExpired
  | calledProcessError
  | otherError
deriving DecidableEq

/-- Python exceptions that escape the modelled fragment. -/
inductive PyError where
  | attributeError
  | keyError
  | duplicateColumns
  | lengthMismatch
deriving DecidableEq

/-- `[ic for ic in idcodes if ic and ic.strip()]` (decode.py line 18).
A NaN cell is a float, which is truthy, and `float.strip` raises
`AttributeError`; this comprehension runs before the `try` block, so that
error propagates to the caller. -/
def filterValid : List Cell → Except PyError (List String)
  | [] => Except.ok []
  | none :: _ => Except.error PyError.attributeError
  | some s :: rest =>
    if s ≠ "" ∧ pyStrip s ≠ "" then (filterValid rest).map (fun v => s :: v)
    else filterValid rest

/-- One stdout line's resolution against the submitted batch: the decoded
identifier `valid_idcodes[int(index_str)]` when the line has a colon and
its value part is not an `ERROR:`; parse failures are distinguished from
skipped lines by the caller. -/
def resolveLine (valid : List String) (line : String) : Option String :=
  match splitFirstColon line with
  | none => none
  | some (idxStr, smiles) =>
    if pyStartsWith smiles "ERROR:" then none
    else
      match pyInt idxStr with
      | none => none
      | some n => pyIndex valid n

/-- The result-parsing loop of decode.py lines 34-44, threading the
`results` list.  `int(index_str)` raising `ValueError` and
`valid_idcodes[batch_index]` raising `IndexError` abort the loop (they are
caught by the enclosing `except` and turn the whole column absent). -/
def processLines (idcodes : List Cell) (valid : List String) :
    List String → List Cell → Except Unit (List Cell)
  | [], results => Except.ok results
  | line :: rest, results =>
    match splitFirstColon line with
    | none => processLines idcodes valid rest results
    | some (idxStr, smiles) =>
      if pyStartsWith smiles "ERROR:" then processLines idcodes valid rest results
      else
        match pyInt idxStr with
        | none => Except.error ()
        | some n =>
          match pyIndex valid n with
          | none => Except.error ()
          | some decoded =>
            processLines idcodes valid rest
              (List.zipWith
                (fun c r => if c = some decoded then some smiles else r)
                idcodes results)

/-- The value → decoded-string assignment built from the response lines,
as the amended claim C1 words the remap: each non-error line resolves its
position `int(index_str)` into the submitted batch and assigns its decoded
string to that identifier value; lines without a colon or with an `ERROR:`
value are skipped, and the parse failures (`int()`, out-of-range index)
abort exactly where the result loop of decode.py aborts. -/
def remapValue (valid : List String) :
    List String → (String → Option String) → Except Unit (String → Option String)
  | [], g => Except.ok g
  | line :: rest, g =>
    match splitFirstColon line with
    | none => remapValue valid rest g
    | some (idxStr, smiles) =>
      if pyStartsWith smiles "ERROR:" then remapValue valid rest g
      else
        match pyInt idxStr with
        | none => Except.error ()
        | some n =>
          match pyIndex valid n with
          | none => Except.error ()
          | some decoded =>
            remapValue valid rest (fun v => if v = decoded then some smiles else g v)

/-- `decode_idcodes` (decode.py lines 12-53), parameterised by the
external-process oracle `ext`.  Besides the decoded column it returns the
trace of batches submitted to the oracle (empty when the subprocess is
never spawned). -/
def decode_idcodes (ext : List String → ExtOutcome) (idcodes : List Cell) :
    Except PyError (List Cell × List (List String)) :=
  if idcodes = [] then Except.ok ([], [])
  else
    match filterValid idcodes with
    | Except.error e => Except.error e
    | Except.ok valid =>
      if valid = [] then Except.ok (idcodes.map (fun _ => none), [])
      else
        match ext valid with
        | ExtOutcome.success out =>
          match processLines idcodes valid out (idcodes.map (fun _ => none)) with
          | Except.ok res => Except.ok (res, [valid])
          | Except.error _ => Except.ok (idcodes.map (fun _ => none), [valid])
        | _ => Except.ok (idcodes.map (fun _ => none), [valid])

/-- `decode_idcodes` on a column of genuine strings (the claim statements
quantify over string sequences). -/
def decodeS (ext : List String → ExtOutcome) (l : List String) :
    Except PyError (List Cell × List (List String)) :=
  decode_idcodes ext (l.map some)

/-- The ordered filter of non-blank identifiers, as computed by
decode.py line 18 on a list of strings. -/
def pyValid (l : List String) : List String :=
  l.filter (fun s => decide (s ≠ "" ∧ pyStrip s ≠ ""))

/-- Did the external call fail wholesale (timeout, non-zero exit, or an
unexpected exception)? -/
def extFails : ExtOutcome → Bool
  | ExtOutcome.success _ => false
  | _ => true

/-! ## Parser (`src/dwar2pd/parser.py`) -/

/-- `is_dwar_file` (parser.py lines 19-21). -/
def is_dwar_file (content : String) : Bool :=
  strContains content "<datawarrior-fileinfo>" || strContains content "<column properties>"

/-- Attributes recorded per column by the metadata extractor
(`{"type": "string"}` plus the optional `specialType` / `parent`). -/
structure ColProps where
  typeAttr : String
  specialType : Option String
  parent : Option String
deriving DecidableEq

/-- Fresh attribute record created at a `<columnName=...>` line. -/
def freshProps : ColProps := ⟨"string", none, none⟩

/-- Python-dict insertion: replace the value in place if the key exists
(keeping its position, as Python dicts do), else append. -/
def dictSet (k : String) (v : ColProps) : List (String × ColProps) → List (String × ColProps)
  | [] => [(k, v)]
  | (k', v') :: rest => if k' = k then (k, v) :: rest else (k', v') :: dictSet k v rest

/-- Update one field of the entry at key `k` (which the source guarantees
is present whenever this runs). -/
def dictUpdate (k : String) (f : ColProps → ColProps) :
    List (String × ColProps) → List (String × ColProps)
  | [] => []
  | (k', v') :: rest =>
    if k' = k then (k', f v') :: rest else (k', v') :: dictUpdate k f rest

/-- `re.search(r'<TAG="([^"]+)">', line)`: scan every start position for
the literal opener `pre`, capture the maximal nonempty run of non-quote
characters and require `">` right after it; on failure resume the scan at
the next position, as `re.search` does. -/
def reSearchGo (pre : List Char) : List Char → Option String
  | [] => none
  | c :: rest =>
    if pre.isPrefixOf (c :: rest) then
      let after := (c :: rest).drop pre.length
      let cap := after.takeWhile (fun ch => !(ch = '"'))
      if cap ≠ [] ∧ ['"', '>'].isPrefixOf (after.drop cap.length) then some ⟨cap⟩
      else reSearchGo pre rest
    else reSearchGo pre rest

/-- `prop.split(sub)[1].strip()` (parser.py lines 59, 63); the `[1]`
subscript is guarded in the source by `sub in prop`, so the `getD` default
is never consulted. -/
def propValueAfter (prop sub : String) : String :=
  pyStrip ((pySplitSub prop sub).getD 1 "")

/-- One loop iteration of `extract_column_properties` (parser.py
lines 31-64); the state is
(inside-column-properties, current column, accumulated dict). -/
def extractStep (st : Bool × Option String × List (String × ColProps)) (rawLine : String) :
    Bool × Option String × List (String × ColProps) :=
  let line := pyStrip rawLine
  let (inCP, current, info) := st
  if line = "<column properties>" then (true, current, info)
  else if line = "</column properties>" then (false, current, info)
  else if ¬ inCP then st
  else if pyStartsWith line "<columnName=" then
    match reSearchGo "<columnName=\"".data line.data with
    | some name => (inCP, some name, dictSet name freshProps info)
    | none => st
  else
    match current with
    | none => st
    | some cur =>
      if pyStartsWith line "<columnProperty=" ∧ ¬ (cur = "") then
        match reSearchGo "<columnProperty=\"".data line.data with
        | some prop =>
          if strContains prop "specialType" then
            (inCP, current,
              dictUpdate cur (fun p => { p with specialType := some (propValueAfter prop "specialType") }) info)
          else if strContains prop "parent" then
            (inCP, current,
              dictUpdate cur (fun p => { p with parent := some (propValueAfter prop "parent") }) info)
          else st
        | none => st
      else st

/-- `extract_column_properties` (parser.py lines 24-66). -/
def extract_column_properties (content : String) : List (String × ColProps) :=
  ((pyLines content).foldl extractStep (false, none, [])).2.2

/-- The header shape test of parser.py lines 89-92, on an
already-stripped line: nonempty, has a tab, no `<`/`>` markup prefix, and
at least three tab-separated fields. -/
def headerShape (l : String) : Bool :=
  !(l = "") && strContains l "\t" && !(pyStartsWith l "<") && !(pyStartsWith l ">")
    && decide (3 ≤ (splitTab l).length)

/-- The data-line shape test of parser.py lines 98-99, on an
already-stripped line. -/
def dataShape (l : String) : Bool :=
  !(l = "") && strContains l "\t" && !(pyStartsWith l "<") && !(pyStartsWith l ">")
    && !(pyStartsWith l "settings=")

/-- The loop of `find_header_and_data_lines` (parser.py lines 78-102) as a
tail recursion over the lines; state: has `</column properties>` been
seen, has a header been accepted, the header, the data rows.  The two
nested `if`s of the header branch collapse into one guard: when the outer
conditions hold but the field count is below three, the data branch is
unreachable anyway because `header_found` is still false. -/
def fhdlGo (foundEnd headerFound : Bool) (header : Option (List String))
    (acc : List (List String)) : List String → Option (List String) × List (List String)
  | [] => (header, acc)
  | rawLine :: rest =>
    let line := pyStrip rawLine
    if strContains line "<column properties>" then
      fhdlGo foundEnd headerFound header acc rest
    else if strContains line "</column properties>" then
      fhdlGo true headerFound header acc rest
    else if foundEnd && !headerFound && headerShape line then
      fhdlGo foundEnd true (some (splitTab line)) acc rest
    else if dataShape line && headerFound then
      fhdlGo foundEnd headerFound header (acc ++ [splitTab line]) rest
    else
      fhdlGo foundEnd headerFound header acc rest

/-- `find_header_and_data_lines` (parser.py lines 69-104). -/
def find_header_and_data_lines (content : String) :
    Option (List String) × List (List String) :=
  fhdlGo false false none [] (pyLines content)

/-- A pandas DataFrame at the fidelity the source exercises: named
positional columns over rows of cells. -/
structure DataFrame where
  cols : List String
  rows : List (List Cell)
deriving DecidableEq

/-- `pd.DataFrame()`. -/
def emptyDF : DataFrame := ⟨[], []⟩

/-- `find_idcode_columns_for_decoding` (parser.py lines 107-129): the
metadata keys, in dict order, that are current column names and declare
`specialType` case-insensitively equal to `idcode`.  The source builds
`columns_to_decode` and `columns_to_remove` by appending to both in one
loop, so they are the same list, returned here as a pair. -/
def find_idcode_columns_for_decoding (cols : List String)
    (columnInfo : List (String × ColProps)) : List String × List String :=
  let l := (columnInfo.filter
      (fun kv => cols.contains kv.1 && (pyLower (kv.2.specialType.getD "") = "idcode"))).map
      (fun kv => kv.1)
  (l, l)

/-- `df[col].tolist()`: the cell values of the (unique) column named
`name`; pandas returns a DataFrame instead of a Series when the label is
duplicated, and `.tolist()` then raises, modelled as `duplicateColumns`. -/
def dfGetCol (df : DataFrame) (name : String) : Except PyError (List Cell) :=
  match df.cols.count name with
  | 0 => Except.error PyError.keyError
  | 1 => Except.ok (df.rows.map (fun r => (r.get? (df.cols.indexOf name)).getD none))
  | _ => Except.error PyError.duplicateColumns

/-- `df[name] = vals`: overwrite the unique existing column of that name,
or append a new one; a length mismatch or duplicated target label raises
in pandas. -/
def dfSetCol (df : DataFrame) (name : String) (vals : List Cell) :
    Except PyError DataFrame :=
  if ¬ (vals.length = df.rows.length) then Except.error PyError.lengthMismatch
  else
    match df.cols.count name with
    | 0 => Except.ok ⟨df.cols ++ [name], List.zipWith (fun r v => r ++ [v]) df.rows vals⟩
    | 1 => Except.ok ⟨df.cols, List.zipWith (fun r v => r.set (df.cols.indexOf name) v) df.rows vals⟩
    | _ => Except.error PyError.duplicateColumns

/-- Drop every column whose name satisfies `bad`, together with its cells
(`df.drop(columns=[...])` where the list collects exactly the names
satisfying `bad`). -/
def dfDropCols (df : DataFrame) (bad : String → Bool) : DataFrame :=
  ⟨df.cols.filter (fun c => !(bad c)),
   df.rows.map (fun r => ((df.cols.zip r).filter (fun p => !(bad p.1))).map (fun p => p.2))⟩

/-- `pd.DataFrame(data_lines)` followed by the column-naming of parser.py
lines 200-205: rows are padded with NaN to the widest row; header names
are used when the header is truthy (non-`None` and nonempty) and its
field count equals the column count, else `Column_i` names. -/
def mkDF (header : Option (List String)) (data : List (List String)) : DataFrame :=
  let w := data.foldl (fun m r => max m r.length) 0
  let names :=
    match header with
    | some h => if ¬ (h = []) ∧ h.length = w then h
        else (List.range w).map (fun i => "Column_" ++ toString i)
    | none => (List.range w).map (fun i => "Column_" ++ toString i)
  ⟨names, data.map (fun r => r.map some ++ List.replicate (w - r.length) none)⟩

/-- `df.dropna(how='all')` (parser.py line 208): drop rows all of whose
cells are NA. -/
def dropnaAll (df : DataFrame) : DataFrame :=
  ⟨df.cols, df.rows.filter (fun r => !(r.all (fun c => c = none)))⟩

/-- The per-column body of `decode_structures_in_dataframe` (parser.py
lines 146-159), iterated over `columns_to_decode`; returns the updated
frame and the concatenated trace of batches submitted to the oracle. -/
def decodeColsGo (ext : List String → ExtOutcome) (df : DataFrame) :
    List String → Except PyError (DataFrame × List (List String))
  | [] => Except.ok (df, [])
  | c :: cs =>
    match dfGetCol df c with
    | Except.error e => Except.error e
    | Except.ok idcodes =>
      match decode_idcodes ext idcodes with
      | Except.error e => Except.error e
      | Except.ok (smiles, tr) =>
        match dfSetCol df (c ++ "_SMILES") smiles with
        | Except.error e => Except.error e
        | Except.ok df' =>
          match decodeColsGo ext df' cs with
          | Except.error e => Except.error e
          | Except.ok (df'', trs) => Except.ok (df'', tr ++ trs)

/-- `decode_structures_in_dataframe` (parser.py lines 132-161). -/
def decode_structures_in_dataframe (ext : List String → ExtOutcome)
    (df : DataFrame) (columnInfo : List (String × ColProps)) :
    Except PyError (DataFrame × List (List String)) :=
  decodeColsGo ext df (find_idcode_columns_for_decoding df.cols columnInfo).1

/-- The coordinate-name test of parser.py lines 219-220. -/
def coordPat (c : String) : Bool :=
  ["coordinate", "coord", "atomcoord", "scaffoldatom"].any
    (fun pat => strContains (pyLower c) pat)

/-- The column-removal predicate of the `exclude_structure_columns` block
(parser.py lines 216-227): original idcode columns, coordinate-pattern
columns and columns named `Smiles` case-insensitively, as one set. -/
def excludeBad (columnInfo : List (String × ColProps)) (cols : List String)
    (c : String) : Bool :=
  (find_idcode_columns_for_decoding cols columnInfo).2.contains c
    || coordPat c || (pyLower c = "smiles")

/-- Why `LoadDwar` can fail: the explicit `ValueError` for a non-DWAR
file, or a Python exception escaping the pipeline. -/
inductive LoadErr where
  | formatError
  | py (e : PyError)
deriving DecidableEq

/-- The frame as of parser.py line 208: raw data rows, named, with
all-NA rows dropped. -/
def assembledDF (content : String) : DataFrame :=
  dropnaAll (mkDF (find_header_and_data_lines content).1
    (find_header_and_data_lines content).2)

/-- `LoadDwar` after the format check (parser.py lines 186-237); the
file read is abstracted away: `content` is the file's text. -/
def loadBody (ext : List String → ExtOutcome) (content : String)
    (excludeStructureColumns : Bool) : Except PyError (DataFrame × List (List String)) :=
  if (find_header_and_data_lines content).2 = [] then Except.ok (emptyDF, [])
  else
    let columnInfo := extract_column_properties content
    match decode_structures_in_dataframe ext (assembledDF content) columnInfo with
    | Except.error e => Except.error e
    | Except.ok (df1, tr) =>
      let df2 :=
        if excludeStructureColumns then
          dfDropCols df1 (excludeBad columnInfo df1.cols)
        else df1
      Except.ok (dfDropCols df2 (fun c => pyEndsWith c "Fp"), tr)

/-- `LoadDwar` (parser.py lines 164-237), parameterised by the decoder
oracle; alongside the frame it returns the trace of decoder batches. -/
def LoadDwar (ext : List String → ExtOutcome) (content : String)
    (excludeStructureColumns : Bool) : Except LoadErr (DataFrame × List (List String)) :=
  if ¬ is_dwar_file content then Except.error LoadErr.formatError
  else (loadBody ext content excludeStructureColumns).mapError LoadErr.py

/-! ## Spec-side body-locator definitions (for claims C9/C10) -/

/-- Modelled from the spec, literally as claim C9 words it: the header is
"the first line after the metadata-block closing sentinel that does not
start with `<` or `>`, contains at least one tab, and splits into three
or more tab-separated fields" — with no exemption for lines that merely
contain a sentinel substring. -/
def claimHeaderGo (closed : Bool) : List String → Option (List String)
  | [] => none
  | rawLine :: rest =>
    let line := pyStrip rawLine
    if closed ∧ headerShape line then some (splitTab line)
    else claimHeaderGo (closed || strContains line "</column properties>") rest

/-- The claim-C9 reading of the header rule applied to a document. -/
def claimHeader (content : String) : Option (List String) :=
  claimHeaderGo false (pyLines content)

/-- Data rows per the amended body-locator spec: every line after the
header that passes the data shape test and contains neither metadata
sentinel. -/
def specDataAfter (rest : List String) : List (List String) :=
  (rest.filter (fun rawLine =>
      let line := pyStrip rawLine
      !(strContains line "<column properties>")
        && !(strContains line "</column properties>") && dataShape line)).map
    (fun rawLine => splitTab (pyStrip rawLine))

/-- Modelled from the amended claim C9: lines containing a metadata
sentinel substring are consumed as sentinel events (the closing one marks
the block closed) and are never header or data candidates; the first
subsequent line passing the header shape test is the header; data rows
are the qualifying lines strictly after it. -/
def bodySpecGo (closed : Bool) : List String → Option (List String) × List (List String)
  | [] => (none, [])
  | rawLine :: rest =>
    let line := pyStrip rawLine
    if strContains line "<column properties>" then bodySpecGo closed rest
    else if strContains line "</column properties>" then bodySpecGo true rest
    else if closed ∧ headerShape line then (some (splitTab line), specDataAfter rest)
    else bodySpecGo closed rest

/-- The amended-claim body locator applied to a document. -/
def bodyLocatorSpec (content : String) : Option (List String) × List (List String) :=
  bodySpecGo false (pyLines content)

/-! ## Concrete documents and oracles used in counterexamples/witnesses -/

/-- An oracle whose subprocess succeeds with empty stdout. -/
def extNone : List String → ExtOutcome := fun _ => ExtOutcome.success []

/-- An oracle whose subprocess succeeds and decodes batch position 0. -/
def extFirst : List String → ExtOutcome := fun _ => ExtOutcome.success ["0:SMI"]

/-- An oracle whose subprocess always times out. -/
def extTimeout : List String → ExtOutcome := fun _ => ExtOutcome.timeoutExpired

/-- Document with a `Smiles` column and no metadata block body. -/
def docSmiles : String :=
  "<datawarrior-fileinfo>\n</column properties>\nID\tSmiles\tVal\n1\tCC\t2"

/-- Document whose idcode column is named `coord`. -/
def docCoord : String :=
  "<column properties>\n<columnName=\"coord\">\n<columnProperty=\"specialType\tidcode\">\n</column properties>\nID\tcoord\tV\n1\tABC\t2"

/-- Document with idcode column `Structure` and a duplicated identifier. -/
def docStructure : String :=
  "<column properties>\n<columnName=\"Structure\">\n<columnProperty=\"specialType\tidcode\">\n</column properties>\nID\tStructure\tV\n1\tABC\t2\n2\tABC\t3"

/-- Document with the file-info marker but no metadata-block closing
sentinel, followed by tab-delimited lines. -/
def docNoClose : String := "<datawarrior-fileinfo>\na\tb\tc\n1\t2\t3"

/-- Document whose first shape-qualifying line after the closing sentinel
contains the opening sentinel as a substring mid-line. -/
def docSentinelLine : String :=
  "</column properties>\nx\ty\tz<column properties>\na\tb\tc\n1\t2\t3"

/-! ## Decode-gateway lemmas -/

theorem filterValid_map_some (l : List String) :
    filterValid (l.map some) = Except.ok (pyValid l) := by
  induction l with
  | nil => rfl
  | cons s rest ih =>
    by_cases h : s ≠ "" ∧ pyStrip s ≠ ""
    · simp [filterValid, pyValid, List.filter_cons, h] at ih ⊢
      simp [ih, Except.map]
    · simp [filterValid, pyValid, List.filter_cons, h] at ih ⊢
      simpa [h] using ih

theorem zipWith_update_map (idcodes : List Cell) (f : Cell → Cell)
    (d sm : String) :
    List.zipWith (fun c r => if c = some d then some sm else r) idcodes (idcodes.map f)
      = idcodes.map (fun c => if c = some d then some sm else f c) := by
  induction idcodes with
  | nil => rfl
  | cons c cs ih => simp [List.zipWith, ih]

theorem processLines_map (idcodes : List Cell) (valid : List String)
    (lines : List String) :
    ∀ (f : Cell → Cell) (res : List Cell),
      processLines idcodes valid lines (idcodes.map f) = Except.ok res →
      ∃ g, res = idcodes.map g := by
  induction lines with
  | nil =>
    intro f res h
    simp [processLines] at h
    exact ⟨f, h.symm⟩
  | cons line rest ih =>
    intro f res h
    simp only [processLines] at h
    split at h
    · exact ih f res h
    · split at h
      · exact ih f res h
      · split at h
        · simp at h
        · split at h
          · simp at h
          · rw [zipWith_update_map] at h
            exact ih _ res h

/-- The all-absent result column for input `l`. -/
def allNone (l : List String) : List Cell := l.map (fun _ => none)

theorem map_some_map_none (l : List String) :
    (l.map some).map (fun _ : Cell => (none : Cell)) = allNone l := by
  simp only [allNone, List.map_map]
  rfl

/-- One-step unfolding of `decodeS` on a nonempty column. -/
theorem decodeS_eq (l : List String) (ext : List String → ExtOutcome) (hl : l ≠ []) :
    decodeS ext l =
      (if pyValid l = [] then Except.ok (allNone l, [])
      else
        match ext (pyValid l) with
        | ExtOutcome.success out =>
          match processLines (l.map some) (pyValid l) out (allNone l) with
          | Except.ok res => Except.ok (res, [pyValid l])
          | Except.error _ => Except.ok (allNone l, [pyValid l])
        | _ => Except.ok (allNone l, [pyValid l])) := by
  have h1 : ¬ (l.map some = []) := by simpa using hl
  unfold decodeS decode_idcodes
  rw [if_neg h1, filterValid_map_some]
  simp only [map_some_map_none]

/-- Master shape lemma for `decode_idcodes` on a column of strings: it
always succeeds, the result is a pointwise function of the input values,
the trace is the nonempty filtered batch or nothing, and a wholesale
external failure yields the all-absent column. -/
theorem decodeS_master (l : List String) (ext : List String → ExtOutcome) :
    ∃ r t g, decodeS ext l = Except.ok (r, t) ∧ r = l.map g ∧
      t = (if pyValid l = [] then [] else [pyValid l]) ∧
      (extFails (ext (pyValid l)) = true → r = allNone l) := by
  by_cases hl : l = []
  · subst hl
    exact ⟨[], [], fun _ => none, rfl, rfl, by simp [pyValid], fun _ => rfl⟩
  by_cases hv : pyValid l = []
  · refine ⟨allNone l, [], fun _ => none, ?_, rfl, by simp [hv], fun _ => rfl⟩
    rw [decodeS_eq l ext hl, if_pos hv]
  cases hx : ext (pyValid l) with
  | success out =>
    cases hp : processLines (l.map some) (pyValid l) out (allNone l) with
    | ok res =>
      have hp' : processLines (l.map some) (pyValid l) out
          ((l.map some).map (fun _ : Cell => (none : Cell))) = Except.ok res := by
        rw [map_some_map_none]; exact hp
      obtain ⟨g, hg⟩ := processLines_map (l.map some) (pyValid l) out _ res hp'
      refine ⟨res, [pyValid l], fun x => g (some x), ?_, ?_, by simp [hv], ?_⟩
      · rw [decodeS_eq l ext hl, if_neg hv]
        simp only [hx, hp]
      · rw [hg, List.map_map]; rfl
      · intro hf; simp [extFails] at hf
    | error e =>
      refine ⟨allNone l, [pyValid l], fun _ => none, ?_, rfl, by simp [hv], fun _ => rfl⟩
      rw [decodeS_eq l ext hl, if_neg hv]
      simp only [hx, hp]
  | timeoutExpired =>
    refine ⟨allNone l, [pyValid l], fun _ => none, ?_, rfl, by simp [hv], fun _ => rfl⟩
    rw [decodeS_eq l ext hl, if_neg hv]
    simp only [hx]
  | calledProcessError =>
    refine ⟨allNone l, [pyValid l], fun _ => none, ?_, rfl, by simp [hv], fun _ => rfl⟩
    rw [decodeS_eq l ext hl, if_neg hv]
    simp only [hx]
  | otherError =>
    refine ⟨allNone l, [pyValid l], fun _ => none, ?_, rfl, by simp [hv], fun _ => rfl⟩
    rw [decodeS_eq l ext hl, if_neg hv]
    simp only [hx]

/-! ## Claims C1, C5, C6, C7 (batch decode gateway) -/

theorem zipWith_update_bind (idcodes : List Cell) (g : String → Option String)
    (d sm : String) :
    List.zipWith (fun c r => if c = some d then some sm else r) idcodes
        (idcodes.map (fun c => c.bind g))
      = idcodes.map (fun c => c.bind (fun v => if v = d then some sm else g v)) := by
  induction idcodes with
  | nil => rfl
  | cons c cs ih =>
    simp only [List.map_cons, List.zipWith_cons_cons, ih]
    congr 1
    cases c with
    | none => simp
    | some v => by_cases hv : v = d <;> simp [hv]

/-- The result loop of decode.py is exactly the value-based remap: running
it from a column already mapped through an assignment `g` yields the
column mapped through the assignment that the response lines extend `g`
to, and it aborts precisely when building that assignment aborts. -/
theorem processLines_remap (valid : List String) (lines : List String) :
    ∀ (idcodes : List Cell) (g : String → Option String),
      processLines idcodes valid lines (idcodes.map (fun c => c.bind g))
        = (remapValue valid lines g).map
            (fun gg => idcodes.map (fun c => c.bind gg)) := by
  induction lines with
  | nil => intro idcodes g; rfl
  | cons line rest ih =>
    intro idcodes g
    simp only [processLines, remapValue]
    cases hc : splitFirstColon line with
    | none => simp only [hc]; exact ih idcodes g
    | some p =>
      obtain ⟨idxStr, smiles⟩ := p
      simp only [hc]
      by_cases he : pyStartsWith smiles "ERROR:" = true
      · rw [if_pos he, if_pos he]
        exact ih idcodes g
      · rw [if_neg he, if_neg he]
        cases hn : pyInt idxStr with
        | none => simp only [hn]; rfl
        | some n =>
          simp only [hn]
          cases hd : pyIndex valid n with
          | none => simp only [hd]; rfl
          | some decoded =>
            simp only [hd]
            rw [zipWith_update_bind]
            exact ih idcodes _

theorem map_some_bind_none (l : List String) :
    (l.map some).map (fun c => c.bind (fun _ => (none : Option String)))
      = allNone l := by
  simp only [List.map_map, allNone]
  rfl

/-- Claim C1, counterexample: for the column `["ABC", "ABC"]` the batch
submitted to the external decoder is `["ABC", "ABC"]` — the blank filter
of decode.py line 18 does not deduplicate — whereas the claim states the
decoder receives the deduplicated batch `["ABC"]`.  (The position-0
response is still remapped onto both duplicate rows.) -/
theorem c1_counterexample :
    decodeS extFirst ["ABC", "ABC"]
        = Except.ok ([some "SMI", some "SMI"], [["ABC", "ABC"]])
      ∧ [["ABC", "ABC"]] ≠ [["ABC"]] := by
  exact ⟨rfl, by decide⟩

/-- Claim C1 (amended): the batch submitted to the external decoder is the
ordered filter of non-blank identifiers with duplicates retained; and the
position-addressed results are remapped by value onto every original row
position — whenever the external call succeeds and its response lines
parse, the result column is the original sequence mapped through the
value → decoded-string assignment built from those lines. -/
theorem c1_batch_and_value_remap (l : List String) (ext : List String → ExtOutcome)
    (h : pyValid l ≠ []) :
    ∃ r, decodeS ext l = Except.ok (r, [pyValid l]) ∧
      ∀ out, ext (pyValid l) = ExtOutcome.success out →
        ∀ g', remapValue (pyValid l) out (fun _ => none) = Except.ok g' →
          r = l.map g' := by
  have hl : l ≠ [] := by
    intro he
    subst he
    exact h rfl
  cases hx : ext (pyValid l) with
  | success out =>
    cases hp : processLines (l.map some) (pyValid l) out (allNone l) with
    | ok res =>
      have hrel := processLines_remap (pyValid l) out (l.map some) (fun _ => none)
      rw [map_some_bind_none] at hrel
      refine ⟨res, ?_, ?_⟩
      · rw [decodeS_eq l ext hl, if_neg h]
        simp only [hx, hp]
      · intro out2 hout g' hg'
        injection hout with hout2
        subst hout2
        rw [hp, hg'] at hrel
        simp only [Except.map] at hrel
        rw [Except.ok.injEq] at hrel
        rw [hrel, List.map_map]
        rfl
    | error e =>
      have hrel := processLines_remap (pyValid l) out (l.map some) (fun _ => none)
      rw [map_some_bind_none] at hrel
      refine ⟨allNone l, ?_, ?_⟩
      · rw [decodeS_eq l ext hl, if_neg h]
        simp only [hx, hp]
      · intro out2 hout g' hg'
        injection hout with hout2
        subst hout2
        rw [hp, hg'] at hrel
        simp [Except.map] at hrel
  | timeoutExpired =>
    refine ⟨allNone l, ?_, ?_⟩
    · rw [decodeS_eq l ext hl, if_neg h]
      simp only [hx]
    · intro out2 hout g' hg'
      exact ExtOutcome.noConfusion hout
  | calledProcessError =>
    refine ⟨allNone l, ?_, ?_⟩
    · rw [decodeS_eq l ext hl, if_neg h]
      simp only [hx]
    · intro out2 hout g' hg'
      exact ExtOutcome.noConfusion hout
  | otherError =>
    refine ⟨allNone l, ?_, ?_⟩
    · rw [decodeS_eq l ext hl, if_neg h]
      simp only [hx]
    · intro out2 hout g' hg'
      exact ExtOutcome.noConfusion hout

/-- Witness for `c1_batch_and_value_remap` at the duplicated column
`["ABC", "ABC"]` under an oracle that decodes batch position 0: both the
nonemptiness hypothesis and, inside the conclusion, the success and
parsed-lines hypotheses are discharged at concrete inputs. -/
theorem c1_batch_and_value_remap_witness :
    pyValid ["ABC", "ABC"] ≠ [] ∧
      ∃ r, decodeS extFirst ["ABC", "ABC"]
          = Except.ok (r, [pyValid ["ABC", "ABC"]]) ∧
        ∀ out, extFirst (pyValid ["ABC", "ABC"]) = ExtOutcome.success out →
          ∀ g', remapValue (pyValid ["ABC", "ABC"]) out (fun _ => none)
              = Except.ok g' →
            r = ["ABC", "ABC"].map g' :=
  ⟨by decide, c1_batch_and_value_remap ["ABC", "ABC"] extFirst (by decide)⟩

/-- Claim C5: the batch decode operation never propagates a failure (it
always returns a value), the output has the input's length, and whenever
the external call fails wholesale — timeout, non-zero exit, or an
unexpected exception — the result is the all-absent sequence. -/
theorem c5_decode_total_and_graceful (l : List String) (ext : List String → ExtOutcome) :
    (∃ p, decodeS ext l = Except.ok p) ∧
      ∀ r t, decodeS ext l = Except.ok (r, t) →
        r.length = l.length ∧
          (extFails (ext (pyValid l)) = true → r = l.map (fun _ => none)) := by
  obtain ⟨r, t, g, hok, hg, _, hfail⟩ := decodeS_master l ext
  refine ⟨⟨(r, t), hok⟩, ?_⟩
  intro r' t' hok'
  rw [hok] at hok'
  have hr : r = r' := by
    have := (Except.ok.injEq _ _).mp hok'
    exact (congrArg Prod.fst this)
  subst hr
  exact ⟨by rw [hg]; exact l.length_map g, hfail⟩

/-- Witness for `c5_decode_total_and_graceful` on a timing-out decoder. -/
theorem c5_decode_total_and_graceful_witness :
    ([none] : List Cell).length = (["A"] : List String).length ∧
      (extFails (extTimeout (pyValid ["A"])) = true →
        ([none] : List Cell) = (["A"] : List String).map (fun _ => none)) :=
  (c5_decode_total_and_graceful ["A"] extTimeout).2 [none] [["A"]] (by rfl)

/-- Claim C6: duplicate occurrences of the same identifier receive the
same decoded value — if positions `i` and `j` of the column hold the same
string and some non-error response line resolves to that string, the
outputs at `i` and `j` agree. -/
theorem c6_remap_idempotent (l : List String) (ext : List String → ExtOutcome)
    (r : List Cell) (t : List (List String))
    (hok : decodeS ext l = Except.ok (r, t)) (i j : Nat) (v : String)
    (hi : l.get? i = some v) (hj : l.get? j = some v)
    (hres : (match ext (pyValid l) with
             | ExtOutcome.success lines =>
               lines.any (fun li => resolveLine (pyValid l) li = some v)
             | _ => false) = true) :
    r.get? i = r.get? j := by
  obtain ⟨r', t', g, hok', hg, _, _⟩ := decodeS_master l ext
  rw [hok] at hok'
  have hr : r = r' := congrArg Prod.fst ((Except.ok.injEq _ _).mp hok'.symm).symm
  subst hr
  rw [hg, List.get?_map, List.get?_map, hi, hj]

/-- Witness for `c6_remap_idempotent` at a duplicated identifier whose
decode succeeds. -/
theorem c6_remap_idempotent_witness :
    (([some "SMI", some "SMI"] : List Cell).get? 0
        = ([some "SMI", some "SMI"] : List Cell).get? 1) :=
  c6_remap_idempotent ["ABC", "ABC"] extFirst [some "SMI", some "SMI"]
    [["ABC", "ABC"]] (by rfl) 0 1 "ABC" (by rfl) (by rfl) (by decide)

/-- Claim C7: a column of entirely empty or whitespace-only entries never
invokes the external boundary (the batch trace is empty) and decodes to
the all-absent sequence of the same length. -/
theorem c7_blank_column_no_call (l : List String) (ext : List String → ExtOutcome)
    (hb : ∀ s ∈ l, s = "" ∨ pyStrip s = "") :
    decodeS ext l = Except.ok (l.map (fun _ => none), []) := by
  have hv : pyValid l = [] := by
    apply List.filter_eq_nil.mpr
    intro s hs
    rcases hb s hs with h | h <;> simp [h]
  by_cases hl : l = []
  · subst hl; rfl
  · rw [decodeS_eq l ext hl, if_pos hv]
    rfl

/-- Witness for `c7_blank_column_no_call` on `["", " "]`. -/
theorem c7_blank_column_no_call_witness :
    (∀ s ∈ (["", " "] : List String), s = "" ∨ pyStrip s = "") ∧
      decodeS extNone ["", " "] = Except.ok ([none, none], []) := by
  refine ⟨by decide, ?_⟩
  have h := c7_blank_column_no_call ["", " "] extNone (by decide)
  simpa using h

/-! ## Claim C4 (format check) -/

/-- Claim C4: a document containing neither file-info marker makes the
load operation fail with the format error; a document containing at least
one marker never raises the format error. -/
theorem c4_format_error (content : String) (ext : List String → ExtOutcome)
    (flag : Bool) :
    (strContains content "<datawarrior-fileinfo>" = false ∧
        strContains content "<column properties>" = false →
      LoadDwar ext content flag = Except.error LoadErr.formatError) ∧
    (strContains content "<datawarrior-fileinfo>" = true ∨
        strContains content "<column properties>" = true →
      LoadDwar ext content flag ≠ Except.error LoadErr.formatError) := by
  constructor
  · intro h
    simp [LoadDwar, is_dwar_file, h.1, h.2]
  · intro h
    have hd : is_dwar_file content = true := by
      rcases h with h | h <;> simp [is_dwar_file, h]
    rw [LoadDwar, if_neg (by simp [hd])]
    cases loadBody ext content flag with
    | ok p => simp [Except.mapError]
    | error e => simp [Except.mapError]

/-- Witness for `c4_format_error` on a markerless document. -/
theorem c4_format_error_witness :
    (strContains "hello" "<datawarrior-fileinfo>" = false ∧
        strContains "hello" "<column properties>" = false) ∧
      LoadDwar extNone "hello" true = Except.error LoadErr.formatError :=
  ⟨⟨by decide, by decide⟩, (c4_format_error "hello" extNone true).1 ⟨by decide, by decide⟩⟩

/-! ## Body-locator lemmas (fold/spec equivalence) -/

theorem fhdlGo_after (lines : List String) :
    ∀ (fe : Bool) (hdr : Option (List String)) (acc : List (List String)),
      fhdlGo fe true hdr acc lines = (hdr, acc ++ specDataAfter lines) := by
  induction lines with
  | nil => intro fe hdr acc; simp [fhdlGo, specDataAfter]
  | cons raw rest ih =>
    intro fe hdr acc
    simp only [fhdlGo]
    by_cases hO : strContains (pyStrip raw) "<column properties>" = true
    · simp [hO, ih, specDataAfter, List.filter_cons]
    · by_cases hC : strContains (pyStrip raw) "</column properties>" = true
      · simp [hO, hC, ih, specDataAfter, List.filter_cons]
      · by_cases hD : dataShape (pyStrip raw) = true
        · simp [hO, hC, hD, ih, specDataAfter, List.filter_cons]
        · simp [hO, hC, hD, ih, specDataAfter, List.filter_cons]

theorem fhdlGo_pre (lines : List String) :
    ∀ fe : Bool, fhdlGo fe false none [] lines = bodySpecGo fe lines := by
  induction lines with
  | nil => intro fe; rfl
  | cons raw rest ih =>
    intro fe
    simp only [fhdlGo, bodySpecGo]
    by_cases hO : strContains (pyStrip raw) "<column properties>" = true
    · simp [hO, ih]
    · by_cases hC : strContains (pyStrip raw) "</column properties>" = true
      · simp [hO, hC, ih]
      · cases fe with
        | false => simp [hO, hC, ih]
        | true =>
          by_cases hSh : headerShape (pyStrip raw) = true
          · simp [hO, hC, hSh, fhdlGo_after]
          · simp [hO, hC, hSh, ih]

/-! ## Claims C9, C10 (body locator) -/

/-- Claim C9, counterexample: in `docSentinelLine` the first line after
the closing sentinel that passes the claim's header shape test (no `<`/`>`
prefix, a tab, three or more fields) is `x\ty\tz<column properties>`, yet
the code skips it — any line containing a metadata sentinel substring is
consumed before the shape test — and accepts the later `a\tb\tc` instead. -/
theorem c9_counterexample :
    claimHeader docSentinelLine = some ["x", "y", "z<column properties>"] ∧
      (find_header_and_data_lines docSentinelLine).1 = some ["a", "b", "c"] ∧
      claimHeader docSentinelLine ≠ (find_header_and_data_lines docSentinelLine).1 := by
  refine ⟨by decide, by decide, by decide⟩

/-- Claim C9 (amended): the body locator behaves as the claim describes,
with one added rule — a line containing either metadata-sentinel substring
is consumed as a sentinel event and is never a header or data candidate.
With that amendment the locator equals the spec-shaped scan: the header is
the first qualifying line after the closing sentinel, it is not collected
as data, data rows are exactly the qualifying lines strictly after it, and
when no line qualifies the result is no header and no data rows. -/
theorem c9_body_locator_refines_spec (content : String) :
    find_header_and_data_lines content = bodyLocatorSpec content :=
  fhdlGo_pre (pyLines content) false

/-- Auxiliary for claim C10: with no line containing the closing sentinel,
the find-header state machine never leaves its initial state. -/
theorem fhdlGo_no_close (lines : List String)
    (h : ∀ l ∈ lines, strContains (pyStrip l) "</column properties>" = false) :
    fhdlGo false false none [] lines = (none, []) := by
  induction lines with
  | nil => rfl
  | cons raw rest ih =>
    have hC : strContains (pyStrip raw) "</column properties>" = false :=
      h raw (by simp)
    have hrest : ∀ l ∈ rest, strContains (pyStrip l) "</column properties>" = false :=
      fun l hl => h l (by simp [hl])
    simp only [fhdlGo]
    by_cases hO : strContains (pyStrip raw) "<column properties>" = true
    · simp [hO, ih hrest]
    · simp [hO, hC, ih hrest]

/-- Claim C10: if no line of the document contains the metadata-block
closing sentinel `</column properties>`, the body locator yields no header
and no data rows, and (when the file-info marker makes the format check
pass) the load operation returns the empty 0-row, 0-column table without
ever invoking the decoder. -/
theorem c10_no_closing_sentinel (content : String) (ext : List String → ExtOutcome)
    (flag : Bool)
    (h : ∀ l ∈ pyLines content, strContains (pyStrip l) "</column properties>" = false) :
    find_header_and_data_lines content = (none, []) ∧
      (is_dwar_file content = true →
        LoadDwar ext content flag = Except.ok (emptyDF, [])) := by
  have hb : find_header_and_data_lines content = (none, []) :=
    fhdlGo_no_close (pyLines content) h
  refine ⟨hb, fun hd => ?_⟩
  rw [LoadDwar, if_neg (by simp [hd])]
  rw [loadBody, hb]
  simp [Except.mapError]

/-- Witness for `c10_no_closing_sentinel` on `docNoClose`. -/
theorem c10_no_closing_sentinel_witness :
    (∀ l ∈ pyLines docNoClose,
        strContains (pyStrip l) "</column properties>" = false) ∧
      find_header_and_data_lines docNoClose = (none, []) ∧
      (is_dwar_file docNoClose = true →
        LoadDwar extNone docNoClose true = Except.ok (emptyDF, [])) :=
  ⟨by decide, c10_no_closing_sentinel docNoClose extNone true (by decide)⟩

/-! ## DataFrame invariant lemmas -/

/-- Well-formedness: every row is as wide as the column-name sequence. -/
def DFwf (df : DataFrame) : Prop := ∀ r ∈ df.rows, r.length = df.cols.length

/-- The widest-row width computed by `pd.DataFrame(data)`. -/
def maxWidth (data : List (List String)) : Nat :=
  data.foldl (fun m r => max m r.length) 0

theorem foldl_max_le_init (data : List (List String)) :
    ∀ a : Nat, a ≤ data.foldl (fun m r => max m r.length) a := by
  induction data with
  | nil => intro a; simp
  | cons r rs ih => intro a; exact le_trans (le_max_left a r.length) (ih _)

theorem mem_le_foldl_max (data : List (List String)) :
    ∀ (a : Nat) (r : List String), r ∈ data →
      r.length ≤ data.foldl (fun m r => max m r.length) a := by
  induction data with
  | nil => intro a r h; simp at h
  | cons x xs ih =>
    intro a r h
    rcases List.mem_cons.mp h with h | h
    · subst h; exact le_trans (le_max_right a r.length) (foldl_max_le_init xs _)
    · exact ih _ r h

theorem mkDF_rows (hdr : Option (List String)) (data : List (List String)) :
    (mkDF hdr data).rows
      = data.map (fun r => r.map some ++ List.replicate (maxWidth data - r.length) none) :=
  rfl

theorem mkDF_cols_len (hdr : Option (List String)) (data : List (List String)) :
    (mkDF hdr data).cols.length = maxWidth data := by
  cases hdr with
  | none => simp [mkDF, maxWidth]
  | some h =>
    by_cases hc : ¬(h = []) ∧ h.length = maxWidth data
    · simp only [mkDF]
      rw [if_pos (by exact hc)]
      exact hc.2
    · simp only [mkDF]
      rw [if_neg (by exact hc)]
      simp [maxWidth]

theorem mkDF_wf (hdr : Option (List String)) (data : List (List String)) :
    DFwf (mkDF hdr data) := by
  intro r hr
  rw [mkDF_rows] at hr
  obtain ⟨x, hx, rfl⟩ := List.mem_map.mp hr
  have hle : x.length ≤ maxWidth data := mem_le_foldl_max data 0 x hx
  rw [mkDF_cols_len]
  simp [Nat.add_sub_cancel' hle]

theorem dropnaAll_wf {df : DataFrame} (h : DFwf df) : DFwf (dropnaAll df) := by
  intro r hr
  exact h r (List.mem_filter.mp hr).1

theorem dfGetCol_ok_len {df : DataFrame} {name : String} {vals : List Cell}
    (h : dfGetCol df name = Except.ok vals) : vals.length = df.rows.length := by
  unfold dfGetCol at h
  split at h
  · simp at h
  · rw [Except.ok.injEq] at h
    subst h
    simp
  · simp at h

theorem dfSetCol_ok_inv {df : DataFrame} {name : String} {vals : List Cell}
    {df' : DataFrame} (h : dfSetCol df name vals = Except.ok df') :
    vals.length = df.rows.length ∧
      ((df' = ⟨df.cols ++ [name], List.zipWith (fun r v => r ++ [v]) df.rows vals⟩) ∨
       (name ∈ df.cols ∧
        df' = ⟨df.cols, List.zipWith (fun r v => r.set (df.cols.indexOf name) v) df.rows vals⟩)) := by
  unfold dfSetCol at h
  split at h
  · simp at h
  · rename_i hlen
    rw [not_not] at hlen
    refine ⟨hlen, ?_⟩
    split at h
    · rw [Except.ok.injEq] at h; exact Or.inl h.symm
    · rename_i hcount
      rw [Except.ok.injEq] at h
      refine Or.inr ⟨?_, h.symm⟩
      exact List.count_pos_iff.mp (by rw [hcount]; exact Nat.one_pos)
    · simp at h

theorem zipWith_append_len {rows : List (List Cell)} {n : Nat}
    (h : ∀ r ∈ rows, r.length = n) :
    ∀ (vals : List Cell) (x : List Cell),
      x ∈ List.zipWith (fun r v => r ++ [v]) rows vals → x.length = n + 1 := by
  induction rows with
  | nil => intro vals x hx; simp at hx
  | cons r rs ih =>
    intro vals x hx
    cases vals with
    | nil => simp at hx
    | cons v vs =>
      rcases List.mem_cons.mp hx with hx | hx
      · subst hx; simp [h r (by simp)]
      · exact ih (fun r hr => h r (by simp [hr])) vs x hx

theorem zipWith_set_len {rows : List (List Cell)} {n : Nat} {i : Nat}
    (h : ∀ r ∈ rows, r.length = n) :
    ∀ (vals : List Cell) (x : List Cell),
      x ∈ List.zipWith (fun r v => r.set i v) rows vals → x.length = n := by
  induction rows with
  | nil => intro vals x hx; simp at hx
  | cons r rs ih =>
    intro vals x hx
    cases vals with
    | nil => simp at hx
    | cons v vs =>
      rcases List.mem_cons.mp hx with hx | hx
      · subst hx; simp [h r (by simp)]
      · exact ih (fun r hr => h r (by simp [hr])) vs x hx

theorem dfSetCol_ok_wf {df : DataFrame} {name : String} {vals : List Cell}
    {df' : DataFrame} (hwf : DFwf df) (h : dfSetCol df name vals = Except.ok df') :
    DFwf df' := by
  obtain ⟨hlen, hd | ⟨hmem, hd⟩⟩ := dfSetCol_ok_inv h
  · subst hd
    intro r hr
    simp only [List.length_append, List.length_cons, List.length_nil]
    have := zipWith_append_len hwf vals r hr
    omega
  · subst hd
    intro r hr
    exact zipWith_set_len hwf vals r hr

theorem dfSetCol_ok_rows_len {df : DataFrame} {name : String} {vals : List Cell}
    {df' : DataFrame} (h : dfSetCol df name vals = Except.ok df') :
    df'.rows.length = df.rows.length := by
  obtain ⟨hlen, hd | ⟨hmem, hd⟩⟩ := dfSetCol_ok_inv h <;> subst hd <;>
    simp [List.length_zipWith, hlen]

theorem dfSetCol_ok_cols {df : DataFrame} {name : String} {vals : List Cell}
    {df' : DataFrame} (h : dfSetCol df name vals = Except.ok df') :
    df'.cols = df.cols ++ [name] ∨ df'.cols = df.cols := by
  obtain ⟨hlen, hd | ⟨hmem, hd⟩⟩ := dfSetCol_ok_inv h <;> subst hd <;> simp

theorem dfSetCol_ok_mem {df : DataFrame} {name : String} {vals : List Cell}
    {df' : DataFrame} (h : dfSetCol df name vals = Except.ok df') :
    name ∈ df'.cols := by
  obtain ⟨hlen, hd | ⟨hmem, hd⟩⟩ := dfSetCol_ok_inv h
  · subst hd; simp
  · subst hd; simpa using hmem

theorem zip_filter_map_len {bad : String → Bool} :
    ∀ (cols : List String) (r : List Cell), r.length = cols.length →
      (((cols.zip r).filter (fun p => !(bad p.1))).map (fun p => p.2)).length
        = (cols.filter (fun c => !(bad c))).length := by
  intro cols
  induction cols with
  | nil => intro r h; simp
  | cons c cs ih =>
    intro r h
    cases r with
    | nil => simp at h
    | cons v vs =>
      simp only [List.length_cons, Nat.succ_inj] at h  -- wait direction
      by_cases hb : bad c = true
      · simp [List.zip_cons_cons, List.filter_cons, hb, ih vs h]
      · simp [List.zip_cons_cons, List.filter_cons, hb, ih vs h]

theorem dfDropCols_wf {df : DataFrame} {bad : String → Bool} (h : DFwf df) :
    DFwf (dfDropCols df bad) := by
  intro r hr
  simp only [dfDropCols] at hr ⊢
  obtain ⟨x, hx, rfl⟩ := List.mem_map.mp hr
  exact zip_filter_map_len df.cols x (h x hx)

theorem dfDropCols_rows_len (df : DataFrame) (bad : String → Bool) :
    (dfDropCols df bad).rows.length = df.rows.length := by
  simp [dfDropCols]

theorem dfDropCols_mem {df : DataFrame} {bad : String → Bool} {c : String} :
    c ∈ (dfDropCols df bad).cols ↔ c ∈ df.cols ∧ bad c = false := by
  simp only [dfDropCols, List.mem_filter, Bool.not_eq_true']

/-- The decode result has the length of its input column. -/
theorem decode_idcodes_ok_len {ext : List String → ExtOutcome} {cells : List Cell}
    {r : List Cell} {t : List (List String)}
    (h : decode_idcodes ext cells = Except.ok (r, t)) : r.length = cells.length := by
  unfold decode_idcodes at h
  split at h
  · rename_i hc
    rw [Except.ok.injEq, Prod.mk.injEq] at h
    subst hc
    simp [← h.1]
  · split at h
    · simp at h
    · split at h
      · rw [Except.ok.injEq] at h
        have : r = cells.map (fun _ => none) := by
          have := congrArg Prod.fst h; simpa using this.symm
        simp [this]
      · split at h
        · split at h
          · rename_i res hp
            rw [Except.ok.injEq] at h
            obtain ⟨g, hg⟩ := processLines_map cells _ _ (fun _ => none) res hp
            have : r = cells.map g := by
              have := congrArg Prod.fst h; simp at this; rw [← this]; exact hg
            simp [this]
          · rw [Except.ok.injEq] at h
            have : r = cells.map (fun _ => none) := by
              have := congrArg Prod.fst h; simpa using this.symm
            simp [this]
        · rw [Except.ok.injEq] at h
          have : r = cells.map (fun _ => none) := by
            have := congrArg Prod.fst h; simpa using this.symm
          simp [this]

/-! ## Decode-loop preservation lemmas -/

theorem decodeColsGo_inv {ext : List String → ExtOutcome} :
    ∀ (cs : List String) (df df' : DataFrame) (tr : List (List String)),
      decodeColsGo ext df cs = Except.ok (df', tr) →
      df'.rows.length = df.rows.length ∧
        (DFwf df → DFwf df') ∧
        (∀ c ∈ df.cols, c ∈ df'.cols) ∧
        (∀ c ∈ cs, (c ++ "_SMILES") ∈ df'.cols) := by
  intro cs
  induction cs with
  | nil =>
    intro df df' tr h
    simp only [decodeColsGo] at h
    rw [Except.ok.injEq, Prod.mk.injEq] at h
    rw [← h.1]
    exact ⟨rfl, fun hw => hw, fun c hc => hc, by simp⟩
  | cons c cs ih =>
    intro df df' tr h
    simp only [decodeColsGo] at h
    split at h
    · simp at h
    · rename_i idcodes hget
      split at h
      · simp at h
      · rename_i smiles ptr hdec
        split at h
        · simp at h
        · rename_i df1 hset
          split at h
          · simp at h
          · rename_i df2 trs hrec
            rw [Except.ok.injEq, Prod.mk.injEq] at h
            obtain ⟨hrl, hwf, hmono, hadds⟩ := ih df1 df2 trs hrec
            have hlen1 : df1.rows.length = df.rows.length := dfSetCol_ok_rows_len hset
            have hdfq : df2 = df' := h.1
            refine ⟨?_, ?_, ?_, ?_⟩
            · rw [← hdfq, hrl, hlen1]
            · intro hw
              rw [← hdfq]
              exact hwf (dfSetCol_ok_wf hw hset)
            · intro x hx
              rw [← hdfq]
              apply hmono
              rcases dfSetCol_ok_cols hset with hc1 | hc1 <;> rw [hc1] <;> simp [hx]
            · intro x hx
              rcases List.mem_cons.mp hx with hx | hx
              · subst hx
                rw [← hdfq]
                exact hmono _ (dfSetCol_ok_mem hset)
              · rw [← hdfq]
                exact hadds x hx

/-! ## Data-line shape lemmas (no collected data row is all-blank) -/

theorem trimStart_head {l : List Char} {c : Char} {cs : List Char}
    (h : trimStart l = c :: cs) : isPyWS c = false := by
  induction l with
  | nil => simp [trimStart] at h
  | cons x xs ih =>
    by_cases hx : isPyWS x = true
    · rw [trimStart, List.dropWhile_cons_of_pos hx] at h
      exact ih h
    · rw [trimStart, List.dropWhile_cons_of_neg hx] at h
      injection h with h1 h2
      rw [← h1]
      simpa [Bool.not_eq_true] using hx

theorem trimEnd_isPrefix (l : List Char) : (trimEnd l).IsPrefix l := by
  have h1 : (l.reverse.dropWhile isPyWS).IsSuffix l.reverse :=
    List.dropWhile_suffix isPyWS
  have h2 := (List.reverse_prefix).mpr h1
  rw [List.reverse_reverse] at h2
  exact h2

theorem pyStrip_head {s : String} {c : Char} {cs : List Char}
    (h : (pyStrip s).data = c :: cs) : isPyWS c = false := by
  have hp : (trimEnd (trimStart s.data)).IsPrefix (trimStart s.data) :=
    trimEnd_isPrefix (trimStart s.data)
  obtain ⟨t, ht⟩ := hp
  rw [show (pyStrip s).data = trimEnd (trimStart s.data) from rfl] at h
  rw [h] at ht
  exact trimStart_head ht.symm

theorem splitCh_ne_nil (c : Char) (l : List Char) : splitCh c l ≠ [] := by
  cases l with
  | nil => simp [splitCh]
  | cons x xs =>
    simp only [splitCh]
    split
    · simp
    · split <;> simp

theorem splitCh_head_of_ne {c x : Char} (xs : List Char) (hx : ¬ x = c) :
    ∃ h t, splitCh c (x :: xs) = (x :: h) :: t := by
  simp only [splitCh]
  split
  · rename_i heq
    exact absurd heq (splitCh_ne_nil c xs)
  · rename_i h t heq
    rw [if_neg hx]
    exact ⟨h, t, rfl⟩

/-- A stripped nonempty line never splits into only empty cells: its
first character is not whitespace, in particular not a tab, so the first
cell is nonempty. -/
theorem splitTab_strip_not_all_empty {raw : String} (h : ¬ pyStrip raw = "") :
    (splitTab (pyStrip raw)).all (fun c => c = "") = false := by
  cases hd : (pyStrip raw).data with
  | nil => exact absurd (by cases hs : pyStrip raw; simp_all) h
  | cons c cs =>
    have hws : isPyWS c = false := pyStrip_head hd
    have hct : ¬ c = '\t' := by
      intro hc; rw [hc] at hws; simp [isPyWS] at hws
    obtain ⟨h1, t1, hsplit⟩ := splitCh_head_of_ne cs hct
    rw [show splitTab (pyStrip raw) = (splitCh '\t' (pyStrip raw).data).map List.asString
        from rfl, hd, hsplit]
    rw [List.map_cons, List.all_cons]
    have hne : (decide (List.asString (c :: h1) = "")) = false := by
      apply decide_eq_false
      intro hemp
      have h2 := congrArg String.data hemp
      simp [List.asString] at h2
    rw [hne]
    simp

/-- Fold invariant: every data row collected by the body locator is the
tab-split of a stripped nonempty line, hence not all-blank. -/
theorem fhdlGo_rows_not_blank :
    ∀ (lines : List String) (fe hf : Bool) (hdr : Option (List String))
      (acc : List (List String)),
      (∀ r ∈ acc, r.all (fun c => c = "") = false) →
      ∀ r ∈ (fhdlGo fe hf hdr acc lines).2, r.all (fun c => c = "") = false := by
  intro lines
  induction lines with
  | nil => intro fe hf hdr acc hacc r hr; exact hacc r hr
  | cons raw rest ih =>
    intro fe hf hdr acc hacc r hr
    simp only [fhdlGo] at hr
    by_cases hO : strContains (pyStrip raw) "<column properties>" = true
    · rw [if_pos hO] at hr; exact ih fe hf hdr acc hacc r hr
    · rw [if_neg (by simp [hO])] at hr
      by_cases hC : strContains (pyStrip raw) "</column properties>" = true
      · rw [if_pos hC] at hr; exact ih true hf hdr acc hacc r hr
      · rw [if_neg (by simp [hC])] at hr
        by_cases hH : (fe && !hf && headerShape (pyStrip raw)) = true
        · rw [if_pos hH] at hr
          exact ih fe true (some (splitTab (pyStrip raw))) acc hacc r hr
        · rw [if_neg (by simp [Bool.not_eq_true] at hH ⊢; exact hH)] at hr
          by_cases hD : (dataShape (pyStrip raw) && hf) = true
          · rw [if_pos hD] at hr
            refine ih fe hf hdr _ ?_ r hr
            intro x hx
            rcases List.mem_append.mp hx with hx | hx
            · exact hacc x hx
            · have hxe : x = splitTab (pyStrip raw) := by simpa using hx
              subst hxe
              have hne : ¬ pyStrip raw = "" := by
                have := (Bool.and_eq_true ..).mp hD
                have hds := this.1
                unfold dataShape at hds
                intro hemp
                rw [hemp] at hds
                simp at hds
              exact splitTab_strip_not_all_empty hne
          · rw [if_neg (by simp [Bool.not_eq_true] at hD ⊢; exact hD)] at hr
            exact ih fe hf hdr acc hacc r hr

/-! ## Load-pipeline inversion lemmas -/

theorem LoadDwar_ok_body {ext : List String → ExtOutcome} {content : String}
    {flag : Bool} {p : DataFrame × List (List String)}
    (h : LoadDwar ext content flag = Except.ok p) :
    is_dwar_file content = true ∧ loadBody ext content flag = Except.ok p := by
  unfold LoadDwar at h
  split at h
  · simp at h
  · rename_i hd
    rw [not_not] at hd
    refine ⟨hd, ?_⟩
    cases hb : loadBody ext content flag with
    | ok q => rw [hb] at h; simp [Except.mapError] at h; rw [h]
    | error e => rw [hb] at h; simp [Except.mapError] at h

theorem loadBody_ok_inv {ext : List String → ExtOutcome} {content : String}
    {flag : Bool} {df : DataFrame} {tr : List (List String)}
    (h : loadBody ext content flag = Except.ok (df, tr)) :
    ((find_header_and_data_lines content).2 = [] ∧ df = emptyDF ∧ tr = []) ∨
    ((find_header_and_data_lines content).2 ≠ [] ∧
      ∃ df1,
        decode_structures_in_dataframe ext (assembledDF content)
            (extract_column_properties content) = Except.ok (df1, tr) ∧
        df = dfDropCols
          (if flag then
            dfDropCols df1 (excludeBad (extract_column_properties content) df1.cols)
          else df1)
          (fun c => pyEndsWith c "Fp")) := by
  simp only [loadBody] at h
  split at h
  · rename_i hemp
    rw [Except.ok.injEq, Prod.mk.injEq] at h
    exact Or.inl ⟨hemp, h.1.symm, h.2.symm⟩
  · rename_i hemp
    cases hdec : decode_structures_in_dataframe ext (assembledDF content)
        (extract_column_properties content) with
    | error e => rw [hdec] at h; simp at h
    | ok q =>
      obtain ⟨df1, tr1⟩ := q
      rw [hdec] at h
      simp only [Except.ok.injEq, Prod.mk.injEq] at h
      refine Or.inr ⟨hemp, df1, ?_, ?_⟩
      · rw [h.2]
      · rw [← h.1]

theorem mkDF_nil_cols (hdr : Option (List String)) : (mkDF hdr []).cols = [] := by
  cases hdr with
  | none => simp [mkDF]
  | some h =>
    by_cases hc : ¬(h = []) ∧ h.length = maxWidth []
    · exfalso
      have := hc.2
      simp [maxWidth] at this
      exact hc.1 this
    · simp only [mkDF]
      rw [if_neg (by exact hc)]
      simp [maxWidth]

theorem dropnaAll_noop {df : DataFrame}
    (h : ∀ r ∈ df.rows, (r.all (fun c => c = none)) = false) :
    dropnaAll df = df := by
  unfold dropnaAll
  cases df with
  | mk cols rows =>
    simp only [DataFrame.mk.injEq, true_and]
    apply List.filter_eq_self.mpr
    intro r hr
    simp [h r hr]

theorem padded_row_not_all_none {r : List String} (hne : r ≠ []) (k : Nat) :
    ((r.map some ++ List.replicate k none).all (fun c => c = none)) = false := by
  cases r with
  | nil => exact absurd rfl hne
  | cons s ss => simp

/-- Every data row located by the body locator is non-blank (its first
cell is nonempty). -/
theorem fhdl_rows_not_blank {content : String} :
    ∀ r ∈ (find_header_and_data_lines content).2, (r.all (fun c => c = "")) = false :=
  fhdlGo_rows_not_blank (pyLines content) false false none [] (by simp)

theorem fhdl_rows_ne_nil {content : String} :
    ∀ r ∈ (find_header_and_data_lines content).2, r ≠ [] := by
  intro r hr he
  have := fhdl_rows_not_blank r hr
  subst he
  simp at this

theorem assembledDF_eq {content : String} :
    assembledDF content
      = mkDF (find_header_and_data_lines content).1
          (find_header_and_data_lines content).2 := by
  apply dropnaAll_noop
  intro r hr
  rw [mkDF_rows] at hr
  obtain ⟨x, hx, rfl⟩ := List.mem_map.mp hr
  exact padded_row_not_all_none (fhdl_rows_ne_nil x hx) _

theorem assembledDF_rows_len {content : String} :
    (assembledDF content).rows.length
      = (find_header_and_data_lines content).2.length := by
  rw [assembledDF_eq, mkDF_rows, List.length_map]

theorem assembledDF_wf {content : String} : DFwf (assembledDF content) := by
  rw [assembledDF_eq]
  exact mkDF_wf _ _

/-! ## Claim C8 (row count and row width invariant) -/

/-- Claim C8: for every successfully loaded document, the returned table
has one row per non-entirely-empty located data line (none of the located
data lines is entirely empty, and pandas' `dropna(how='all')` never drops
a row of string cells), and every retained row is exactly as wide as the
final column-name sequence. -/
theorem c8_row_count_and_width (content : String) (ext : List String → ExtOutcome)
    (flag : Bool) (df : DataFrame) (tr : List (List String))
    (h : LoadDwar ext content flag = Except.ok (df, tr)) :
    df.rows.length
      = (((find_header_and_data_lines content).2).filter
          (fun r => !(r.all (fun c => c = "")))).length ∧
      ∀ r ∈ df.rows, r.length = df.cols.length := by
  have hfilter :
      ((find_header_and_data_lines content).2).filter
          (fun r => !(r.all (fun c => c = "")))
        = (find_header_and_data_lines content).2 := by
    apply List.filter_eq_self.mpr
    intro r hr
    simp [fhdl_rows_not_blank r hr]
  obtain ⟨hdw, hlb⟩ := LoadDwar_ok_body h
  rcases loadBody_ok_inv hlb with ⟨hemp, hdf, htr⟩ | ⟨hne, df1, hdec, hdf⟩
  · subst hdf
    constructor
    · rw [hfilter, hemp]; rfl
    · intro r hr; simp [emptyDF] at hr
  · have hinv := decodeColsGo_inv
      ((find_idcode_columns_for_decoding (assembledDF content).cols
        (extract_column_properties content)).1)
      (assembledDF content) df1 tr
      (by rw [← hdec]; rfl)
    obtain ⟨hrl, hwf, hmono, hadds⟩ := hinv
    have hwf1 : DFwf df1 := hwf assembledDF_wf
    have hwf2 : DFwf (dfDropCols
        (if flag then dfDropCols df1 (excludeBad (extract_column_properties content) df1.cols)
         else df1) (fun c => pyEndsWith c "Fp")) := by
      apply dfDropCols_wf
      by_cases hf : flag = true
      · rw [if_pos hf]; exact dfDropCols_wf hwf1
      · rw [if_neg hf]; exact hwf1
    constructor
    · rw [hfilter, hdf, dfDropCols_rows_len]
      by_cases hf : flag = true
      · rw [if_pos hf, dfDropCols_rows_len, hrl, assembledDF_rows_len]
      · rw [if_neg hf, hrl, assembledDF_rows_len]
    · rw [hdf]
      exact hwf2

/-- Witness for `c8_row_count_and_width` on `docSmiles`. -/
theorem c8_row_count_and_width_witness :
    ((⟨["ID", "Smiles", "Val"], [[some "1", some "CC", some "2"]]⟩ : DataFrame).rows.length
        = (((find_header_and_data_lines docSmiles).2).filter
            (fun r => !(r.all (fun c => c = "")))).length) ∧
      ∀ r ∈ (⟨["ID", "Smiles", "Val"],
          [[some "1", some "CC", some "2"]]⟩ : DataFrame).rows,
        r.length = (⟨["ID", "Smiles", "Val"],
          [[some "1", some "CC", some "2"]]⟩ : DataFrame).cols.length :=
  c8_row_count_and_width docSmiles extNone false
    ⟨["ID", "Smiles", "Val"], [[some "1", some "CC", some "2"]]⟩ [] (by rfl)

/-! ## Claim C2 (Smiles and Fp columns) -/

/-- Claim C2, counterexample: loading `docSmiles` with
`exclude_structure_columns = False` succeeds and the returned table keeps
its `Smiles` column — the case-insensitive `Smiles` removal of parser.py
line 222 only runs inside the `exclude_structure_columns` block — so the
claim's "for every value of the flag" fails. -/
theorem c2_counterexample :
    LoadDwar extNone docSmiles false
        = Except.ok (⟨["ID", "Smiles", "Val"], [[some "1", some "CC", some "2"]]⟩, [])
      ∧ "Smiles" ∈ (["ID", "Smiles", "Val"] : List String)
      ∧ pyLower "Smiles" = "smiles" := by
  refine ⟨by rfl, by decide, by decide⟩

/-- Claim C2 (amended): in every successfully loaded table, no column name
ends in `Fp`; and when `exclude_structure_columns` is true, additionally
no column's lowercased name is exactly `smiles`. -/
theorem c2_no_fp_and_conditional_smiles (content : String)
    (ext : List String → ExtOutcome) (flag : Bool) (df : DataFrame)
    (tr : List (List String)) (h : LoadDwar ext content flag = Except.ok (df, tr)) :
    (∀ c ∈ df.cols, pyEndsWith c "Fp" = false) ∧
      (flag = true → ∀ c ∈ df.cols, ¬ (pyLower c = "smiles")) := by
  obtain ⟨hdw, hlb⟩ := LoadDwar_ok_body h
  rcases loadBody_ok_inv hlb with ⟨hemp, hdf, htr⟩ | ⟨hne, df1, hdec, hdf⟩
  · subst hdf
    exact ⟨fun c hc => by simp [emptyDF] at hc, fun _ c hc => by simp [emptyDF] at hc⟩
  · subst hdf
    constructor
    · intro c hc
      exact (dfDropCols_mem.mp hc).2
    · intro hf c hc
      have h1 := (dfDropCols_mem.mp hc).1
      rw [if_pos hf] at h1
      have h2 := (dfDropCols_mem.mp h1).2
      unfold excludeBad at h2
      simp only [Bool.or_eq_false_iff] at h2
      intro hs
      rw [hs] at h2
      simp at h2

/-- Witness for `c2_no_fp_and_conditional_smiles` on `docSmiles` with the
flag set. -/
theorem c2_no_fp_and_conditional_smiles_witness :
    (∀ c ∈ (["ID", "Val"] : List String), pyEndsWith c "Fp" = false) ∧
      (true = true → ∀ c ∈ (["ID", "Val"] : List String), ¬ (pyLower c = "smiles")) :=
  c2_no_fp_and_conditional_smiles docSmiles extNone true
    ⟨["ID", "Val"], [[some "1", some "2"]]⟩ [] (by rfl)

/-! ## Claim C3 (idcode columns replaced by SMILES columns) -/

theorem find_idcode_mem {cols : List String} {info : List (String × ColProps)}
    {name : String} :
    name ∈ (find_idcode_columns_for_decoding cols info).1 ↔
      ∃ kv ∈ info, kv.1 = name ∧ cols.contains name = true ∧
        pyLower (kv.2.specialType.getD "") = "idcode" := by
  unfold find_idcode_columns_for_decoding
  simp only [List.mem_map, List.mem_filter]
  constructor
  · rintro ⟨kv, ⟨hin, hpred⟩, rfl⟩
    rw [Bool.and_eq_true] at hpred
    exact ⟨kv, hin, rfl, hpred.1, by simpa using hpred.2⟩
  · rintro ⟨kv, hin, h1, hcont, hid⟩
    exact ⟨kv, ⟨hin, by rw [Bool.and_eq_true]; exact ⟨h1 ▸ hcont, by simp [hid]⟩⟩, h1⟩

theorem pyLower_append_smiles_ne (x : String) :
    ¬ (pyLower (x ++ "_SMILES") = "smiles") := by
  intro h
  have hlen := congrArg (fun s => s.data.length) h
  simp [pyLower, String.data_append] at hlen

theorem pyEndsWith_append_smiles_fp (x : String) :
    pyEndsWith (x ++ "_SMILES") "Fp" = false := by
  unfold pyEndsWith
  rw [List.isSuffixOf, String.data_append, List.reverse_append]
  have h7 : ("_SMILES".data).reverse = ['S', 'E', 'L', 'I', 'M', 'S', '_'] := rfl
  have h2 : (("Fp" : String).data).reverse = ['p', 'F'] := rfl
  rw [h7, h2]
  simp [List.isPrefixOf]

/-- Claim C3, counterexample: in `docCoord` the column `coord` is declared
`specialType=idcode` and is present in the assembled table, the load
succeeds with `exclude_structure_columns = true`, yet no `coord_SMILES`
column is present — `coord_SMILES` itself matches the coordinate-name
pattern of parser.py line 219 and is dropped with the originals. -/
theorem c3_counterexample :
    "coord" ∈ (find_idcode_columns_for_decoding (assembledDF docCoord).cols
        (extract_column_properties docCoord)).1
      ∧ LoadDwar extFirst docCoord true
          = Except.ok (⟨["ID", "V"], [[some "1", some "2"]]⟩, [["ABC"]])
      ∧ "coord_SMILES" ∉ (["ID", "V"] : List String) := by
  refine ⟨by decide, by rfl, by decide⟩

/-- Claim C3 (amended): for every successfully loaded document with
`exclude_structure_columns = true` and every idcode column `name` of the
assembled table, `name` is absent from the returned table; and provided
`<name>_SMILES` is not itself declared an idcode column in the metadata
and its lowercased name contains no coordinate substring, the column
`<name>_SMILES` is present in the returned table. -/
theorem c3_idcode_replaced_by_smiles (content : String)
    (ext : List String → ExtOutcome) (df : DataFrame) (tr : List (List String))
    (name : String)
    (h : LoadDwar ext content true = Except.ok (df, tr))
    (hname : name ∈ (find_idcode_columns_for_decoding (assembledDF content).cols
        (extract_column_properties content)).1)
    (hnotid : ∀ kv ∈ extract_column_properties content,
        kv.1 = name ++ "_SMILES" → ¬ (pyLower (kv.2.specialType.getD "") = "idcode"))
    (hcoord : coordPat (name ++ "_SMILES") = false) :
    name ∉ df.cols ∧ (name ++ "_SMILES") ∈ df.cols := by
  obtain ⟨hdw, hlb⟩ := LoadDwar_ok_body h
  rcases loadBody_ok_inv hlb with ⟨hemp, hdf, htr⟩ | ⟨hne, df1, hdec, hdf⟩
  · exfalso
    have hcols : (assembledDF content).cols = [] := by
      rw [assembledDF_eq, hemp]
      exact mkDF_nil_cols _
    obtain ⟨kv, hin, h1, hcont, hid⟩ := find_idcode_mem.mp hname
    rw [hcols] at hcont
    simp [List.contains] at hcont
  · have hinv := decodeColsGo_inv
      ((find_idcode_columns_for_decoding (assembledDF content).cols
        (extract_column_properties content)).1)
      (assembledDF content) df1 tr
      (by rw [← hdec]; rfl)
    obtain ⟨hrl, hwf, hmono, hadds⟩ := hinv
    have hsm1 : (name ++ "_SMILES") ∈ df1.cols := hadds name hname
    obtain ⟨kv, hin, h1, hcont, hid⟩ := find_idcode_mem.mp hname
    have hnm0 : name ∈ (assembledDF content).cols := by
      have := hcont
      simpa [List.contains, List.elem_iff] using this
    have hnm1 : name ∈ df1.cols := hmono name hnm0
    have hnamerem : name ∈ (find_idcode_columns_for_decoding df1.cols
        (extract_column_properties content)).2 := by
      show name ∈ (find_idcode_columns_for_decoding df1.cols
        (extract_column_properties content)).1
      exact find_idcode_mem.mpr
        ⟨kv, hin, h1, by simpa [List.contains, List.elem_iff] using hnm1, hid⟩
    have hbadname : excludeBad (extract_column_properties content) df1.cols name = true := by
      unfold excludeBad
      simp [hnamerem]
    have hgoodsm : excludeBad (extract_column_properties content) df1.cols
        (name ++ "_SMILES") = false := by
      unfold excludeBad
      have h01 : (find_idcode_columns_for_decoding df1.cols
          (extract_column_properties content)).2.contains (name ++ "_SMILES") = false := by
        by_contra hcc
        rw [Bool.not_eq_false] at hcc
        have hmem : (name ++ "_SMILES") ∈ (find_idcode_columns_for_decoding df1.cols
            (extract_column_properties content)).1 := by
          simpa [List.contains, List.elem_iff] using hcc
        obtain ⟨kv', hin', h1', hcont', hid'⟩ := find_idcode_mem.mp hmem
        exact hnotid kv' hin' h1' hid'
      rw [h01, hcoord]
      simp [pyLower_append_smiles_ne]
    rw [if_pos rfl] at hdf
    subst hdf
    constructor
    · intro hmem
      have h3 := (dfDropCols_mem.mp hmem).1
      have h4 := (dfDropCols_mem.mp h3).2
      rw [hbadname] at h4
      exact absurd h4 (by simp)
    · rw [dfDropCols_mem]
      refine ⟨?_, pyEndsWith_append_smiles_fp name⟩
      rw [dfDropCols_mem]
      exact ⟨hsm1, hgoodsm⟩

/-- Witness for `c3_idcode_replaced_by_smiles` on `docStructure`. -/
theorem c3_idcode_replaced_by_smiles_witness :
    "Structure" ∉ (["ID", "V", "Structure_SMILES"] : List String) ∧
      ("Structure" ++ "_SMILES") ∈ (["ID", "V", "Structure_SMILES"] : List String) :=
  c3_idcode_replaced_by_smiles docStructure extFirst
    ⟨["ID", "V", "Structure_SMILES"],
      [[some "1", some "2", some "SMI"], [some "2", some "3", some "SMI"]]⟩
    [["ABC", "ABC"]] "Structure" (by rfl) (by decide) (by decide) (by decide)

end Dwar2pd
